import Mathlib

/-!
# shrink: URL shortener handlers over a document store

A shallow embedding of `backend/models/url.go` and `backend/routes/url.go`.

* The MongoDB collection `urls` is a list of decoded `URL` documents, in
  the order in which the store scans them.
* Every call into the store may fail with a driver error; the outcome is an
  input of the model (`Option String`, the driver's message). A call that
  fails writes nothing.
* `math/rand`, `time.Now`, `primitive.NewObjectID`, `fmt.Sscanf` and the HTTP
  client of the geolocation lookup are inputs of the model as well.
* `float64` values are only stored and copied by this code, never computed
  with, so they are carried as their 64-bit patterns.
-/

namespace Shrink

/-! ## models/url.go -/

/-- Model of `primitive.ObjectID`: the 96-bit value as a number. -/
abbrev ObjectID := Nat

/-- Value of `primitive.NilObjectID`. -/
def NilObjectID : ObjectID := 0

/-- Model of `time.Time`: an instant as a number. -/
abbrev Time := Nat

/-- Model of a Go `float64`: its bit pattern; the zero value is `+0`. -/
structure Float64 where
  bits : Nat
  deriving DecidableEq, Repr

instance : Zero Float64 := ⟨⟨0⟩⟩

instance : Inhabited Float64 := ⟨0⟩

/-- Click event, `models.Click`. -/
structure Click where
  ID : ObjectID := NilObjectID
  Timestamp : Time := 0
  IP : String := ""
  Country : String := ""
  City : String := ""
  Region : String := ""
  Latitude : Float64 := 0
  Longitude : Float64 := 0
  Browser : String := ""
  BrowserVersion : String := ""
  OS : String := ""
  OSVersion : String := ""
  DeviceType : String := ""
  UserAgent : String := ""
  Referrer : String := ""
  deriving DecidableEq, Repr

/-- URL record `models.URL`; `TotalClicks` is the `int64` counter. -/
structure URL where
  ID : ObjectID := NilObjectID
  OriginalURL : String := ""
  ShortURL : String := ""
  CustomAlias : String := ""
  TotalClicks : Int := 0
  CreatedAt : Time := 0
  UpdatedAt : Time := 0
  IsActive : Bool := false
  Clicks : List Click := []
  deriving DecidableEq, Repr

/-- Request body `models.CreateURLRequest`, as bound from JSON. -/
structure CreateURLRequest where
  OriginalURL : String := ""
  CustomAlias : String := ""
  deriving DecidableEq, Repr

/-! ## routes/url.go: constants and the code generator -/

/-- The alphabet of generated codes, `const charset`. -/
def charset : String := "abcdefghijklmnopqrstuvwxyzABCDEFGHIJKLMNOPQRSTUVWXYZ0123456789"

/-- Geolocation answer, `LocationData`. -/
structure LocationData where
  Country : String := ""
  City : String := ""
  Region : String := ""
  Latitude : Float64 := 0
  Longitude : Float64 := 0
  deriving DecidableEq, Repr

/-- Model of `rand.Intn(n)` for `n > 0`: the raw outcome of the random source
reduced into `[0, n)`; every value of that range is reached. -/
def Intn (raw n : Nat) : Nat := raw % n

/-- Byte `s[i]` of an ASCII string. -/
def byteAt (s : String) (i : Nat) : Char := s.data.getD i 'a'

/-- Code generator `GenerateShortURL(length)`. `rand i` is the raw outcome of the
random source at the `i`-th pass of the loop `for i := range b`. A negative
`length` makes `make` panic, so lengths are natural numbers. -/
def GenerateShortURL (rand : Nat → Nat) (length : Nat) : String :=
  String.mk ((List.range length).map fun i => byteAt charset (Intn (rand i) charset.length))

/-! ## The collection `urls` -/

/-- Contents of the collection, in the store's scan order. -/
abbrev Store := List URL

/-- Errors of a store call: `mongo.ErrNoDocuments`, or any other driver error. -/
inductive StoreError where
  | ErrNoDocuments
  | driver (msg : String)
  deriving DecidableEq, Repr

deriving instance DecidableEq for Except

/-- Result of an update, `mongo.UpdateResult`. -/
structure UpdateResult where
  MatchedCount : Int
  ModifiedCount : Int
  deriving DecidableEq, Repr

/-- Store call `collection.CountDocuments(ctx, bson.M{"short_url": code})`. -/
def CountDocuments (fault : Option String) (db : Store) (code : String) : Except StoreError Int :=
  match fault with
  | some msg => .error (.driver msg)
  | none => .ok (db.countP fun u => decide (u.ShortURL = code))

/-- Store call `collection.FindOne(ctx, bson.M{"short_url": code}).Decode(&url)`. -/
def FindOne (fault : Option String) (db : Store) (code : String) : Except StoreError URL :=
  match fault with
  | some msg => .error (.driver msg)
  | none =>
    match db.find? fun u => decide (u.ShortURL = code) with
    | none => .error .ErrNoDocuments
    | some url => .ok url

/-- Store call `collection.InsertOne(ctx, url)`. The field `_id` is `omitempty`,
so a nil id is left out of the document and the driver assigns `newID`. -/
def InsertOne (fault : Option String) (newID : ObjectID) (db : Store) (url : URL) :
    Except StoreError (ObjectID × Store) :=
  match fault with
  | some msg => .error (.driver msg)
  | none =>
    let id := if url.ID = NilObjectID then newID else url.ID
    .ok (id, db ++ [{ url with ID := id }])

/-- The update document of `GetURL` applied to one record:
`$push clicks`, `$inc total_clicks 1`, `$set updated_at`. The addition is the store's,
on its 64-bit integer; the model counts in unbounded integers, and an increment the
store refuses is one of the driver errors of `UpdateOne`. -/
def applyClick (click : Click) (now : Time) (u : URL) : URL :=
  { u with Clicks := u.Clicks ++ [click], TotalClicks := u.TotalClicks + 1, UpdatedAt := now }

/-- Apply the update to the first record with the given `short_url`, if any. -/
def updateFirst (code : String) (click : Click) (now : Time) : Store → Option Store
  | [] => none
  | u :: rest =>
    if u.ShortURL = code then some (applyClick click now u :: rest)
    else (updateFirst code click now rest).map fun rest' => u :: rest'

/-- Store call `collection.UpdateOne(ctx, bson.M{"short_url": code}, update)`. No match is
not an error: both counts are 0 and nothing is written. -/
def UpdateOne (fault : Option String) (db : Store) (code : String) (click : Click) (now : Time) :
    Except StoreError (UpdateResult × Store) :=
  match fault with
  | some msg => .error (.driver msg)
  | none =>
    match updateFirst code click now db with
    | none => .ok (⟨0, 0⟩, db)
    | some db' => .ok (⟨1, 1⟩, db')

/-! ## HTTP answers -/

def StatusOK : Nat := 200
def StatusCreated : Nat := 201
def StatusMovedPermanently : Nat := 301
def StatusBadRequest : Nat := 400
def StatusNotFound : Nat := 404
def StatusInternalServerError : Nat := 500

/-- JSON bodies the handlers write (`gin.H`). -/
inductive Payload where
  | error (msg : String)
  | created (id : ObjectID) (original_url short_url : String) (total_clicks : Int)
      (created_at : Time) (is_active : Bool)
  | info (id : ObjectID) (original_url short_url custom_alias : String) (total_clicks : Int)
      (created_at updated_at : Time) (is_active : Bool) (clicks_count : Int) (clicks : List Click)
  | stats (id : ObjectID) (original_url short_url : String) (total_clicks : Int)
      (created_at updated_at : Time) (is_active : Bool) (clicks : List Click)
  deriving DecidableEq, Repr

/-- What a handler writes: `c.JSON(status, body)` or `c.Redirect(status, location)`. -/
inductive Response where
  | JSON (status : Nat) (body : Payload)
  | Redirect (status : Nat) (location : String)
  deriving DecidableEq, Repr

/-! ## CreateURL -/

/-- Inputs of one run of `CreateURL` that the handler does not control. -/
structure CreateEnv where
  /-- Raw outcome of the random source: attempt number, then position in the code. -/
  rand : Nat → Nat → Nat
  /-- Driver error of the `k`-th call of `CountDocuments`, if any. -/
  countErr : Nat → Option String
  /-- Driver error of `InsertOne`, if any. -/
  insertErr : Option String
  /-- Identifier the driver assigns on insert. -/
  insertedID : ObjectID
  /-- First reading of `time.Now()`, for `CreatedAt`. -/
  createdNow : Time
  /-- Second reading of `time.Now()`, for `UpdatedAt`. -/
  updatedNow : Time

/-- The loop `for { shortURL = GenerateShortURL(6); ... }` of `CreateURL`, from attempt
`k` on. The source loop has no bound; `fuel` bounds the attempts of the model and
`none` means the loop is still running after `fuel` attempts. -/
def generateLoop (env : CreateEnv) (db : Store) : Nat → Nat → Option (Except Response String)
  | 0, _ => none
  | fuel + 1, k =>
    let shortURL := GenerateShortURL (env.rand k) 6
    match CountDocuments (env.countErr k) db shortURL with
    | .error _ => some (.error (.JSON StatusInternalServerError (.error "Database error")))
    | .ok count =>
      if count = 0 then some (.ok shortURL) else generateLoop env db fuel (k + 1)

/-- Tail of `CreateURL` once `shortURL` is chosen: build the document, insert it, answer. -/
def insertURL (env : CreateEnv) (req : CreateURLRequest) (shortURL : String) (db : Store) :
    Response × Store :=
  let url : URL :=
    { ID := NilObjectID
      OriginalURL := req.OriginalURL
      ShortURL := shortURL
      CustomAlias := req.CustomAlias
      TotalClicks := 0
      CreatedAt := env.createdNow
      UpdatedAt := env.updatedNow
      IsActive := true
      Clicks := [] }
  match InsertOne env.insertErr env.insertedID db url with
  | .error _ => (.JSON StatusInternalServerError (.error "Failed to save URL"), db)
  | .ok (insertedID, db') =>
    (.JSON StatusCreated
      (.created insertedID url.OriginalURL url.ShortURL url.TotalClicks url.CreatedAt url.IsActive),
     db')

/-- Handler `CreateURL`. `bind` is the outcome of `c.ShouldBindJSON(&req)`: the error
text, or the bound request. The result is the answer and the store afterwards. -/
def CreateURL (fuel : Nat) (env : CreateEnv) (bind : Except String CreateURLRequest)
    (db : Store) : Option (Response × Store) :=
  match bind with
  | .error err => some (.JSON StatusBadRequest (.error ("Invalid request: " ++ err)), db)
  | .ok req =>
    if req.CustomAlias ≠ "" then
      match CountDocuments (env.countErr 0) db req.CustomAlias with
      | .error _ => some (.JSON StatusInternalServerError (.error "Database error"), db)
      | .ok count =>
        if count > 0 then
          some (.JSON StatusBadRequest (.error "Custom alias already exists"), db)
        else some (insertURL env req req.CustomAlias db)
    else
      match generateLoop env db fuel 0 with
      | none => none
      | some (.error resp) => some (resp, db)
      | some (.ok shortURL) => some (insertURL env req shortURL db)

/-! ## GetURL -/

/-- The part of `gin.Context` the handlers read. -/
structure Context where
  params : List (String × String)
  query : List (String × String)
  header : List (String × String)
  clientIP : String

/-- Path parameter `c.Param(key)`. -/
def Context.Param (c : Context) (key : String) : String := (c.params.lookup key).getD ""

/-- Query value `c.Query(key)`: the first value of the key, or the empty string. -/
def Context.Query (c : Context) (key : String) : String := (c.query.lookup key).getD ""

/-- Header value `c.GetHeader(key)`. -/
def Context.GetHeader (c : Context) (key : String) : String := (c.header.lookup key).getD ""

/-- Address `c.ClientIP()`. -/
def Context.ClientIP (c : Context) : String := c.clientIP

/-- Inputs of one run of `GetURL` that the handler does not control. -/
structure VisitEnv where
  /-- Driver error of `FindOne`, if any. -/
  findErr : Option String
  /-- Driver error of `UpdateOne`, if any. -/
  updateErr : Option String
  /-- Value of `primitive.NewObjectID()`. -/
  newObjectID : ObjectID
  /-- Reading of `time.Now()` for the click. -/
  clickNow : Time
  /-- Reading of `time.Now()` for `updated_at`. -/
  updateNow : Time
  /-- Call `fmt.Sscanf(s, "%f", &x)`: the value stored in `x`, or `none` when the scan
  fails and `x` keeps its value. -/
  Sscanf : String → Option Float64
  /-- Body read from `client.Get(url)`, or `none` when the request or the read fails. -/
  httpGet : String → Option String
  /-- Value of `location` after `json.Unmarshal(body, &location)`. -/
  jsonUnmarshal : String → LocationData

/-- Geolocation lookup `GetLocationFromIP`. -/
def GetLocationFromIP (env : VisitEnv) (ip : String) : LocationData :=
  let url := "https://ipapi.co/" ++ ip ++ "/json/"
  match env.httpGet url with
  | none => {}
  | some body => env.jsonUnmarshal body

/-- Lines 183-222 of `GetURL`: the click built from the request, and the addresses
passed to `GetLocationFromIP` on the way. -/
def captureClick (env : VisitEnv) (c : Context) : Click × List String :=
  let click : Click :=
    { ID := env.newObjectID
      Timestamp := env.clickNow
      IP := c.ClientIP
      UserAgent := c.GetHeader "User-Agent"
      Referrer := c.GetHeader "Referer" }
  let latitude := c.Query "lat"
  let longitude := c.Query "lng"
  let country := c.Query "country"
  let city := c.Query "city"
  let region := c.Query "region"
  if latitude ≠ "" ∧ longitude ≠ "" then
    let lat := (env.Sscanf latitude).getD 0
    let lng := (env.Sscanf longitude).getD 0
    ({ click with Latitude := lat, Longitude := lng, Country := country, City := city,
                  Region := region }, [])
  else if click.IP ≠ "127.0.0.1" ∧ click.IP ≠ "::1" then
    let location := GetLocationFromIP env click.IP
    ({ click with Country := location.Country, City := location.City, Region := location.Region,
                  Latitude := location.Latitude, Longitude := location.Longitude }, [click.IP])
  else
    ({ click with Country := "Local", City := "Testing", Region := "Dev" }, [])

/-- Outcome of one run of `GetURL`. -/
structure Visit where
  response : Response
  /-- Click event built, when the lookup found a record. -/
  click : Option Click
  /-- Addresses passed to `GetLocationFromIP`. -/
  geoCalls : List String
  /-- Store afterwards. -/
  db : Store

/-- Handler `GetURL`. `dbFind` is the store as `FindOne` sees it and `dbUpdate` the store
as `UpdateOne` sees it; they are the same unless another request wrote in between. -/
def GetURL (env : VisitEnv) (c : Context) (dbFind dbUpdate : Store) : Visit :=
  let shortURL := c.Param "shortUrl"
  match FindOne env.findErr dbFind shortURL with
  | .error .ErrNoDocuments =>
    ⟨.JSON StatusNotFound (.error "Short URL not found"), none, [], dbUpdate⟩
  | .error (.driver _) =>
    ⟨.JSON StatusInternalServerError (.error "Database error"), none, [], dbUpdate⟩
  | .ok url =>
    let captured := captureClick env c
    let click := captured.1
    match UpdateOne env.updateErr dbUpdate shortURL click env.updateNow with
    | .error _ =>
      ⟨.Redirect StatusMovedPermanently url.OriginalURL, some click, captured.2, dbUpdate⟩
    | .ok (updateResult, db') =>
      if updateResult.ModifiedCount = 0 then
        ⟨.Redirect StatusMovedPermanently url.OriginalURL, some click, captured.2, db'⟩
      else
        ⟨.Redirect StatusMovedPermanently url.OriginalURL, some click, captured.2, db'⟩

/-! ## GetURLInfo and GetURLStats -/

/-- Handler `GetURLInfo`; the id is written as `url.ID.Hex()`. -/
def GetURLInfo (findErr : Option String) (c : Context) (db : Store) : Response :=
  let shortURL := c.Param "shortUrl"
  match FindOne findErr db shortURL with
  | .error .ErrNoDocuments => .JSON StatusNotFound (.error "Short URL not found")
  | .error (.driver _) => .JSON StatusInternalServerError (.error "Database error")
  | .ok url =>
    .JSON StatusOK
      (.info url.ID url.OriginalURL url.ShortURL url.CustomAlias url.TotalClicks url.CreatedAt
        url.UpdatedAt url.IsActive url.Clicks.length url.Clicks)

/-- Handler `GetURLStats`. -/
def GetURLStats (findErr : Option String) (c : Context) (db : Store) : Response :=
  let shortURL := c.Param "shortUrl"
  match FindOne findErr db shortURL with
  | .error .ErrNoDocuments => .JSON StatusNotFound (.error "Short URL not found")
  | .error (.driver _) => .JSON StatusInternalServerError (.error "Database error")
  | .ok url =>
    .JSON StatusOK
      (.stats url.ID url.OriginalURL url.ShortURL url.TotalClicks url.CreatedAt url.UpdatedAt
        url.IsActive url.Clicks)

/-! ## Requests handled one after another -/

/-- One request to the service. -/
inductive Request where
  | shrink (env : CreateEnv) (bind : Except String CreateURLRequest)
  | visit (env : VisitEnv) (c : Context)

/-- Serve a list of requests one after another. A `CreateURL` whose loop is still
running after `fuel` attempts has written nothing and no later request is served. -/
def serve (fuel : Nat) : List Request → Store → Store
  | [], db => db
  | .shrink env bind :: rest, db =>
    match CreateURL fuel env bind db with
    | none => db
    | some (_, db') => serve fuel rest db'
  | .visit env c :: rest, db => serve fuel rest (GetURL env c db db).db

/-! ## Code generator -/

theorem charset_length : charset.length = 62 := by decide

theorem charset_nodup : charset.data.Nodup := by decide

theorem byteAt_mem_charset (raw : Nat) :
    byteAt charset (Intn raw charset.length) ∈ charset.data := by
  have hlt : Intn raw charset.length < charset.data.length := by
    unfold Intn
    exact Nat.mod_lt _ (by decide)
  unfold byteAt
  rw [List.getD_eq_getElem _ _ hlt]
  exact List.getElem_mem _

/-- Claim C5. For every length and every outcome of the random source, the generated
code has exactly `length` characters, each one a symbol of `charset`, and `charset` has
exactly 62 symbols, all distinct. -/
theorem C5_GenerateShortURL_shape (rand : Nat → Nat) (length : Nat) :
    (GenerateShortURL rand length).length = length ∧
    (∀ ch ∈ (GenerateShortURL rand length).data, ch ∈ charset.data) ∧
    charset.length = 62 ∧ charset.data.Nodup := by
  refine ⟨?_, ?_, charset_length, charset_nodup⟩
  · show ((List.range length).map _).length = length
    rw [List.length_map, List.length_range]
  · intro ch hch
    simp only [GenerateShortURL, List.mem_map, List.mem_range] at hch
    obtain ⟨i, _, rfl⟩ := hch
    exact byteAt_mem_charset _

/-! ## What the handlers do to the store -/

theorem CountDocuments_zero {fault : Option String} {db : Store} {code : String} {count : Int}
    (h : CountDocuments fault db code = .ok count) (h0 : ¬ count > 0) :
    ∀ u ∈ db, u.ShortURL ≠ code := by
  unfold CountDocuments at h
  cases fault with
  | some msg => simp at h
  | none =>
    simp only [Except.ok.injEq] at h
    have hz : db.countP (fun u => decide (u.ShortURL = code)) = 0 := by omega
    intro u hu
    have := (List.countP_eq_zero.mp hz) u hu
    simpa using this

theorem generateLoop_fresh (env : CreateEnv) (db : Store) (fuel k : Nat) (shortURL : String)
    (h : generateLoop env db fuel k = some (.ok shortURL)) :
    ∀ u ∈ db, u.ShortURL ≠ shortURL := by
  induction fuel generalizing k with
  | zero => simp [generateLoop] at h
  | succ fuel ih =>
    simp only [generateLoop] at h
    split at h
    · simp at h
    · rename_i count hc
      split at h
      · rename_i h0
        simp only [Option.some.injEq, Except.ok.injEq] at h
        subst h
        exact CountDocuments_zero hc (by omega)
      · exact ih _ h

/-- A record as `CreateURL` stores it. -/
def created (env : CreateEnv) (req : CreateURLRequest) (shortURL : String) : URL :=
  { ID := env.insertedID
    OriginalURL := req.OriginalURL
    ShortURL := shortURL
    CustomAlias := req.CustomAlias
    TotalClicks := 0
    CreatedAt := env.createdNow
    UpdatedAt := env.updatedNow
    IsActive := true
    Clicks := [] }

theorem insertURL_store (env : CreateEnv) (req : CreateURLRequest) (shortURL : String)
    (db : Store) :
    (insertURL env req shortURL db).2 = db ∨
    (insertURL env req shortURL db).2 = db ++ [created env req shortURL] := by
  unfold insertURL InsertOne
  cases env.insertErr with
  | some msg => left; rfl
  | none => right; simp [created, NilObjectID]

/-- Either `CreateURL` leaves the store as it is, or it appends one record whose
`short_url` no stored record has. -/
theorem CreateURL_store {fuel : Nat} {env : CreateEnv} {bind : Except String CreateURLRequest}
    {db db' : Store} {resp : Response} (h : CreateURL fuel env bind db = some (resp, db')) :
    db' = db ∨ ∃ req shortURL, db' = db ++ [created env req shortURL] ∧
      ∀ u ∈ db, u.ShortURL ≠ shortURL := by
  unfold CreateURL at h
  split at h
  · simp only [Option.some.injEq, Prod.mk.injEq] at h
    exact Or.inl h.2.symm
  · rename_i req
    split at h
    · split at h
      · simp only [Option.some.injEq, Prod.mk.injEq] at h
        exact Or.inl h.2.symm
      · rename_i count hc
        split at h
        · simp only [Option.some.injEq, Prod.mk.injEq] at h
          exact Or.inl h.2.symm
        · rename_i h0
          simp only [Option.some.injEq] at h
          have hdb : db' = (insertURL env req req.CustomAlias db).2 := by rw [h]
          rcases insertURL_store env req req.CustomAlias db with h1 | h1
          · exact Or.inl (hdb.trans h1)
          · exact Or.inr ⟨req, req.CustomAlias, hdb.trans h1, CountDocuments_zero hc h0⟩
    · split at h
      · simp at h
      · simp only [Option.some.injEq, Prod.mk.injEq] at h
        exact Or.inl h.2.symm
      · rename_i shortURL hl
        simp only [Option.some.injEq] at h
        have hdb : db' = (insertURL env req shortURL db).2 := by rw [h]
        rcases insertURL_store env req shortURL db with h1 | h1
        · exact Or.inl (hdb.trans h1)
        · exact Or.inr ⟨req, shortURL, hdb.trans h1, generateLoop_fresh env db fuel 0 shortURL hl⟩

/-- The store after `GetURL` is the store `UpdateOne` saw, or that store with the update
applied to its first matching record. -/
theorem GetURL_store (env : VisitEnv) (c : Context) (dbFind dbUpdate : Store) :
    (GetURL env c dbFind dbUpdate).db = dbUpdate ∨
    updateFirst (c.Param "shortUrl") (captureClick env c).1 env.updateNow dbUpdate =
      some (GetURL env c dbFind dbUpdate).db := by
  unfold GetURL
  simp only
  split
  · exact Or.inl rfl
  · exact Or.inl rfl
  · unfold UpdateOne
    cases env.updateErr with
    | some msg => exact Or.inl rfl
    | none =>
      simp only
      cases hu : updateFirst (c.Param "shortUrl") (captureClick env c).1 env.updateNow dbUpdate with
      | none => left; simp
      | some db' => right; simp

theorem updateFirst_shortURLs (code : String) (click : Click) (now : Time) :
    ∀ (db db' : Store), updateFirst code click now db = some db' →
      db'.map URL.ShortURL = db.map URL.ShortURL := by
  intro db
  induction db with
  | nil => intro db' h; simp [updateFirst] at h
  | cons u rest ih =>
    intro db' h
    simp only [updateFirst] at h
    split at h
    · simp only [Option.some.injEq] at h
      subst h
      simp [applyClick]
    · simp only [Option.map_eq_some'] at h
      obtain ⟨rest', hr, rfl⟩ := h
      simp [ih rest' hr]

/-- Counter and sequence agree on every record of the store. -/
def CounterAgrees (db : Store) : Prop := ∀ u ∈ db, u.TotalClicks = (u.Clicks.length : Int)

theorem updateFirst_counterAgrees (code : String) (click : Click) (now : Time) :
    ∀ (db db' : Store), updateFirst code click now db = some db' →
      CounterAgrees db → CounterAgrees db' := by
  intro db
  induction db with
  | nil => intro db' h; simp [updateFirst] at h
  | cons u rest ih =>
    intro db' h hinv
    simp only [updateFirst] at h
    split at h
    · simp only [Option.some.injEq] at h
      subst h
      intro v hv
      rcases List.mem_cons.mp hv with rfl | hv
      · have := hinv u (List.mem_cons_self _ _)
        simp [applyClick, this]
      · exact hinv v (List.mem_cons_of_mem _ hv)
    · simp only [Option.map_eq_some'] at h
      obtain ⟨rest', hr, rfl⟩ := h
      intro v hv
      rcases List.mem_cons.mp hv with rfl | hv
      · exact hinv _ (List.mem_cons_self _ _)
      · exact ih rest' hr (fun w hw => hinv w (List.mem_cons_of_mem _ hw)) v hv

theorem serve_shortURLs_nodup (fuel : Nat) (reqs : List Request) :
    ∀ db : Store, (db.map URL.ShortURL).Nodup → ((serve fuel reqs db).map URL.ShortURL).Nodup := by
  induction reqs with
  | nil => intro db h; simpa [serve] using h
  | cons r rest ih =>
    intro db h
    cases r with
    | shrink env bind =>
      simp only [serve]
      split
      · exact h
      · rename_i resp db' hc
        apply ih
        rcases CreateURL_store hc with rfl | ⟨req, shortURL, rfl, hfresh⟩
        · exact h
        · rw [List.map_append, List.nodup_append]
          refine ⟨h, by simp, ?_⟩
          intro a ha hb
          simp only [List.map_cons, List.map_nil, List.mem_singleton] at hb
          obtain ⟨u, hu, rfl⟩ := List.mem_map.mp ha
          exact hfresh u hu hb
    | visit env c =>
      simp only [serve]
      apply ih
      rcases GetURL_store env c db db with h1 | h1
      · rw [h1]; exact h
      · rw [updateFirst_shortURLs _ _ _ _ _ h1]; exact h

theorem serve_counterAgrees (fuel : Nat) (reqs : List Request) :
    ∀ db : Store, CounterAgrees db → CounterAgrees (serve fuel reqs db) := by
  induction reqs with
  | nil => intro db h; simpa [serve] using h
  | cons r rest ih =>
    intro db h
    cases r with
    | shrink env bind =>
      simp only [serve]
      split
      · exact h
      · rename_i resp db' hc
        apply ih
        rcases CreateURL_store hc with rfl | ⟨req, shortURL, rfl, _⟩
        · exact h
        · intro u hu
          rcases List.mem_append.mp hu with hu | hu
          · exact h u hu
          · simp only [List.mem_singleton] at hu
            subst hu
            simp [created]
    | visit env c =>
      simp only [serve]
      apply ih
      rcases GetURL_store env c db db with h1 | h1
      · rw [h1]; exact h
      · exact updateFirst_counterAgrees _ _ _ _ _ h1 h

/-! ## Claims C1 and C4 -/

/-- Claim C1. Starting from the empty store, after any finite list of creation requests
handled one after another by `CreateURL` (custom alias or generated code, any outcome of
the random source and of the store calls), no two stored records have the same
`short_url`. -/
theorem C1_short_url_unique (fuel : Nat)
    (reqs : List (CreateEnv × Except String CreateURLRequest)) :
    ((serve fuel (reqs.map fun r => Request.shrink r.1 r.2) []).map URL.ShortURL).Nodup :=
  serve_shortURLs_nodup fuel _ [] (by simp)

/-- Claim C4. Starting from the empty store, after any finite list of creations and
visits handled one after another, every stored record has `total_clicks` equal to the
length of its `clicks`; creation stores a record with counter 0 and no clicks, and the
click update adds one click and adds 1 to the counter. -/
theorem C4_total_clicks_eq_len (fuel : Nat) (reqs : List Request) :
    (∀ u ∈ serve fuel reqs [], u.TotalClicks = (u.Clicks.length : Int)) ∧
    (∀ env req shortURL db, (insertURL env req shortURL db).2 = db ∨
      ∃ u, (insertURL env req shortURL db).2 = db ++ [u] ∧ u.TotalClicks = 0 ∧ u.Clicks = []) ∧
    (∀ click now u, (applyClick click now u).TotalClicks = u.TotalClicks + 1 ∧
      (applyClick click now u).Clicks = u.Clicks ++ [click]) := by
  refine ⟨serve_counterAgrees fuel reqs [] (by intro u hu; simp at hu), ?_,
    fun _ _ _ => ⟨rfl, rfl⟩⟩
  intro env req shortURL db
  rcases insertURL_store env req shortURL db with h | h
  · exact Or.inl h
  · exact Or.inr ⟨_, h, rfl, rfl⟩

/-! ## Sample inputs -/

/-- A `CreateURL` environment in which every store call succeeds. -/
def calmCreateEnv : CreateEnv :=
  { rand := fun k i => 7 * k + i
    countErr := fun _ => none
    insertErr := none
    insertedID := 1
    createdNow := 100
    updatedNow := 101 }

/-- A `CreateURL` environment in which the first `CountDocuments` call fails. -/
def countFailsEnv : CreateEnv :=
  { calmCreateEnv with countErr := fun _ => some "context deadline exceeded" }

/-- A stored record with `short_url` "promo". -/
def promoRecord : URL :=
  { ID := 1
    OriginalURL := "https://example.com/sale"
    ShortURL := "promo"
    CustomAlias := "promo"
    TotalClicks := 0
    CreatedAt := 100
    UpdatedAt := 101
    IsActive := true
    Clicks := [] }

/-- A creation request asking for the alias "promo". -/
def promoRequest : CreateURLRequest :=
  { OriginalURL := "https://example.com/other", CustomAlias := "promo" }

/-! ## Claim C2: custom alias collision -/

theorem CountDocuments_pos {db : Store} {code : String} (h : ∃ u ∈ db, u.ShortURL = code) :
    ∃ count : Int, CountDocuments none db code = .ok count ∧ count > 0 := by
  refine ⟨_, rfl, ?_⟩
  obtain ⟨u, hu, hcode⟩ := h
  have : 0 < db.countP (fun u => decide (u.ShortURL = code)) :=
    List.countP_pos_iff.mpr ⟨u, hu, by simpa using hcode⟩
  omega

/-- Claim C2 as stated fails when the existence check itself fails: the store holds
"promo", the request asks for "promo", `CountDocuments` reports a driver error, and
the answer is 500 "Database error" instead of 400 "Custom alias already exists". -/
theorem C2_counterexample :
    promoRequest.CustomAlias ≠ "" ∧
    (∃ u ∈ [promoRecord], u.ShortURL = promoRequest.CustomAlias) ∧
    CreateURL 0 countFailsEnv (.ok promoRequest) [promoRecord] =
      some (.JSON 500 (.error "Database error"), [promoRecord]) ∧
    CreateURL 0 countFailsEnv (.ok promoRequest) [promoRecord] ≠
      some (.JSON 400 (.error "Custom alias already exists"), [promoRecord]) := by
  decide

/-- Claim C2, amended. When the store holds a record whose `short_url` is the non-empty
alias of a bound request: if the existence check returns, `CreateURL` answers 400
"Custom alias already exists"; if the check fails with a driver error it answers 500
"Database error"; either way the store is left as it was. -/
theorem C2_alias_taken (fuel : Nat) (env : CreateEnv) (req : CreateURLRequest) (db : Store)
    (halias : req.CustomAlias ≠ "") (hheld : ∃ u ∈ db, u.ShortURL = req.CustomAlias) :
    (env.countErr 0 = none →
      CreateURL fuel env (.ok req) db =
        some (.JSON StatusBadRequest (.error "Custom alias already exists"), db)) ∧
    (∀ msg, env.countErr 0 = some msg →
      CreateURL fuel env (.ok req) db =
        some (.JSON StatusInternalServerError (.error "Database error"), db)) ∧
    (∀ resp db', CreateURL fuel env (.ok req) db = some (resp, db') → db' = db) := by
  have h1 : env.countErr 0 = none →
      CreateURL fuel env (.ok req) db =
        some (.JSON StatusBadRequest (.error "Custom alias already exists"), db) := by
    intro hc
    obtain ⟨count, hcount, hpos⟩ := CountDocuments_pos hheld
    simp only [CreateURL, halias, hc, hcount, hpos, ne_eq, not_false_eq_true, if_true]
  have h2 : ∀ msg, env.countErr 0 = some msg →
      CreateURL fuel env (.ok req) db =
        some (.JSON StatusInternalServerError (.error "Database error"), db) := by
    intro msg hc
    simp only [CreateURL, halias, hc, CountDocuments, ne_eq, not_false_eq_true, if_true]
  refine ⟨h1, h2, ?_⟩
  intro resp db' h
  cases hc : env.countErr 0 with
  | none =>
    rw [h1 hc] at h
    simp only [Option.some.injEq, Prod.mk.injEq] at h
    exact h.2.symm
  | some msg =>
    rw [h2 msg hc] at h
    simp only [Option.some.injEq, Prod.mk.injEq] at h
    exact h.2.symm

/-- Claim C2, amended, at a concrete input: "promo" is stored and requested again. -/
theorem C2_alias_taken_witness :
    promoRequest.CustomAlias ≠ "" ∧
    (∃ u ∈ [promoRecord], u.ShortURL = promoRequest.CustomAlias) ∧
    CreateURL 3 calmCreateEnv (.ok promoRequest) [promoRecord] =
      some (.JSON 400 (.error "Custom alias already exists"), [promoRecord]) :=
  ⟨by decide, by decide,
   (C2_alias_taken 3 calmCreateEnv promoRequest [promoRecord] (by decide) (by decide)).1 rfl⟩

/-! ## Claim C8: custom alias accepted unchanged -/

theorem CountDocuments_fresh {db : Store} {code : String} (h : ∀ u ∈ db, u.ShortURL ≠ code) :
    CountDocuments none db code = .ok 0 := by
  have : db.countP (fun u => decide (u.ShortURL = code)) = 0 :=
    List.countP_eq_zero.mpr (fun u hu => by simpa using h u hu)
  simp [CountDocuments, this]

/-- Claim C8. For a bound request with a non-empty alias that no stored record has as
`short_url`, and an insert that does not fail: unless the existence check before it
fails (answer 500, nothing stored), `CreateURL` answers 201 and appends exactly one
record, whose `short_url` is the alias character for character, whose `custom_alias`
equals its `short_url`, with counter 0, active, and no clicks. -/
theorem C8_custom_alias_stored (fuel : Nat) (env : CreateEnv) (req : CreateURLRequest)
    (db : Store) (halias : req.CustomAlias ≠ "")
    (hfree : ∀ u ∈ db, u.ShortURL ≠ req.CustomAlias) (hinsert : env.insertErr = none) :
    (∃ msg, env.countErr 0 = some msg ∧
      CreateURL fuel env (.ok req) db =
        some (.JSON StatusInternalServerError (.error "Database error"), db)) ∨
    (env.countErr 0 = none ∧ ∃ u : URL,
      CreateURL fuel env (.ok req) db =
        some (.JSON StatusCreated
          (.created env.insertedID req.OriginalURL req.CustomAlias 0 env.createdNow true),
          db ++ [u]) ∧
      u.ShortURL = req.CustomAlias ∧ u.ShortURL.data = req.CustomAlias.data ∧
      u.CustomAlias = u.ShortURL ∧ u.TotalClicks = 0 ∧ u.IsActive = true ∧ u.Clicks = [] ∧
      u.OriginalURL = req.OriginalURL) := by
  rcases hcount : env.countErr 0 with _ | msg
  · refine Or.inr ⟨rfl, created env req req.CustomAlias, ?_, rfl, rfl, rfl, rfl, rfl, rfl, rfl⟩
    simp only [CreateURL, halias, hcount, CountDocuments_fresh hfree, ne_eq, not_false_eq_true,
      if_true, insertURL, InsertOne, hinsert, created, NilObjectID]
    simp
  · refine Or.inl ⟨msg, rfl, ?_⟩
    simp only [CreateURL, halias, hcount, CountDocuments, ne_eq, not_false_eq_true, if_true]

/-- Claim C8 at a concrete input: the alias " Promo " (capital letter, blanks on both
sides) is stored as given next to the record "promo". -/
theorem C8_custom_alias_stored_witness :
    ∃ u : URL,
      CreateURL 0 calmCreateEnv (.ok ⟨"https://example.com/x", " Promo "⟩) [promoRecord] =
        some (.JSON 201 (.created 1 "https://example.com/x" " Promo " 0 100 true),
          [promoRecord] ++ [u]) ∧
      u.ShortURL = " Promo " ∧ u.ShortURL.data = " Promo ".data ∧
      u.CustomAlias = u.ShortURL ∧ u.TotalClicks = 0 ∧ u.IsActive = true ∧ u.Clicks = [] ∧
      u.OriginalURL = "https://example.com/x" :=
  ((C8_custom_alias_stored 0 calmCreateEnv ⟨"https://example.com/x", " Promo "⟩ [promoRecord]
    (by decide) (by decide) rfl).resolve_left (by decide)).2

/-! ## Claim C10: unknown code -/

theorem FindOne_absent {db : Store} {code : String} (h : ∀ u ∈ db, u.ShortURL ≠ code) :
    FindOne none db code = .error .ErrNoDocuments := by
  have : db.find? (fun u => decide (u.ShortURL = code)) = none :=
    List.find?_eq_none.mpr (fun u hu => by simpa using h u hu)
  simp [FindOne, this]

/-- A request for the path parameter `shortUrl = code` from address `ip`. -/
def requestFor (code ip : String) (query : List (String × String)) : Context :=
  { params := [("shortUrl", code)], query := query, header := [], clientIP := ip }

/-- Claim C10 as stated fails when the lookup itself fails: the store is empty, so the
code "nope" matches no record, `FindOne` reports a driver error, and both handlers
answer 500 "Database error" instead of 404. -/
theorem C10_counterexample :
    (∀ u ∈ ([] : Store), u.ShortURL ≠ (requestFor "nope" "10.0.0.1" []).Param "shortUrl") ∧
    GetURLInfo (some "context deadline exceeded") (requestFor "nope" "10.0.0.1" []) [] =
      .JSON 500 (.error "Database error") ∧
    GetURLStats (some "context deadline exceeded") (requestFor "nope" "10.0.0.1" []) [] =
      .JSON 500 (.error "Database error") ∧
    GetURLInfo (some "context deadline exceeded") (requestFor "nope" "10.0.0.1" []) [] ≠
      .JSON 404 (.error "Short URL not found") := by
  decide

/-- Claim C10, amended. For a code that matches no stored record: when the lookup
returns, `GetURLInfo` and `GetURLStats` both answer 404 with the error payload
"Short URL not found"; when the lookup fails with a driver error, both answer 500 with
the error payload "Database error". Neither answer carries record data. -/
theorem C10_unknown_code (findErr : Option String) (c : Context) (db : Store)
    (habsent : ∀ u ∈ db, u.ShortURL ≠ c.Param "shortUrl") :
    (findErr = none →
      GetURLInfo findErr c db = .JSON StatusNotFound (.error "Short URL not found") ∧
      GetURLStats findErr c db = .JSON StatusNotFound (.error "Short URL not found")) ∧
    (∀ msg, findErr = some msg →
      GetURLInfo findErr c db = .JSON StatusInternalServerError (.error "Database error") ∧
      GetURLStats findErr c db = .JSON StatusInternalServerError (.error "Database error")) ∧
    (∃ status msg, GetURLInfo findErr c db = .JSON status (.error msg)) ∧
    (∃ status msg, GetURLStats findErr c db = .JSON status (.error msg)) ∧
    StatusNotFound = 404 := by
  have h1 : findErr = none →
      GetURLInfo findErr c db = .JSON StatusNotFound (.error "Short URL not found") ∧
      GetURLStats findErr c db = .JSON StatusNotFound (.error "Short URL not found") := by
    intro hf
    subst hf
    simp [GetURLInfo, GetURLStats, FindOne_absent habsent]
  have h2 : ∀ msg, findErr = some msg →
      GetURLInfo findErr c db = .JSON StatusInternalServerError (.error "Database error") ∧
      GetURLStats findErr c db = .JSON StatusInternalServerError (.error "Database error") := by
    intro msg hf
    subst hf
    simp [GetURLInfo, GetURLStats, FindOne]
  refine ⟨h1, h2, ?_, ?_, rfl⟩
  · rcases hf : findErr with _ | msg
    · exact ⟨_, _, hf ▸ (h1 hf).1⟩
    · exact ⟨_, _, hf ▸ (h2 msg hf).1⟩
  · rcases hf : findErr with _ | msg
    · exact ⟨_, _, hf ▸ (h1 hf).2⟩
    · exact ⟨_, _, hf ▸ (h2 msg hf).2⟩

/-- Claim C10, amended, at a concrete input: "nope" is looked up in a store that holds
only "promo". -/
theorem C10_unknown_code_witness :
    (∀ u ∈ [promoRecord], u.ShortURL ≠ (requestFor "nope" "10.0.0.1" []).Param "shortUrl") ∧
    GetURLInfo none (requestFor "nope" "10.0.0.1" []) [promoRecord] =
      .JSON 404 (.error "Short URL not found") ∧
    GetURLStats none (requestFor "nope" "10.0.0.1" []) [promoRecord] =
      .JSON 404 (.error "Short URL not found") :=
  ⟨by decide,
   ((C10_unknown_code none (requestFor "nope" "10.0.0.1" []) [promoRecord] (by decide)).1 rfl)⟩

/-! ## GetURL: redirect and click capture -/

/-- Readings of `fmt.Sscanf(s, "%f", &x)` on the texts used in the examples: "0", "1",
"2.25" and "48.5" are read as these numbers (IEEE 754 bit patterns); "abc" and "def"
start no number, so the scan fails and `x` is left alone. Other texts do not occur. -/
def sampleSscanf (s : String) : Option Float64 :=
  if s = "0" then some ⟨0⟩
  else if s = "1" then some ⟨0x3FF0000000000000⟩
  else if s = "2.25" then some ⟨0x4002000000000000⟩
  else if s = "48.5" then some ⟨0x4048400000000000⟩
  else none

/-- A `GetURL` environment in which every store call succeeds and the geolocation
request fails. -/
def calmVisitEnv : VisitEnv :=
  { findErr := none
    updateErr := none
    newObjectID := 7
    clickNow := 200
    updateNow := 201
    Sscanf := sampleSscanf
    httpGet := fun _ => none
    jsonUnmarshal := fun _ => {} }

/-- A `GetURL` environment in which `UpdateOne` fails. -/
def updateFailsEnv : VisitEnv :=
  { calmVisitEnv with updateErr := some "context deadline exceeded" }

/-- Once the lookup has found `url`, `GetURL` redirects to it and reports the click and
the geolocation calls of `captureClick`. -/
theorem GetURL_found {env : VisitEnv} {c : Context} {dbFind : Store} {url : URL}
    (dbUpdate : Store) (hfound : FindOne env.findErr dbFind (c.Param "shortUrl") = .ok url) :
    (GetURL env c dbFind dbUpdate).response =
      .Redirect StatusMovedPermanently url.OriginalURL ∧
    (GetURL env c dbFind dbUpdate).click = some (captureClick env c).1 ∧
    (GetURL env c dbFind dbUpdate).geoCalls = (captureClick env c).2 := by
  unfold GetURL
  simp only [hfound]
  split
  · exact ⟨rfl, rfl, rfl⟩
  · split <;> exact ⟨rfl, rfl, rfl⟩

/-- Claim C3. Whenever the lookup of the code succeeds, `GetURL` answers with a 301
redirect to the `original_url` of the record found, for every request context, every
state of the store at the time of the update and every outcome of the update (driver
error, no document modified, or one document modified). -/
theorem C3_redirect_resolves (env : VisitEnv) (c : Context) (dbFind dbUpdate : Store) (url : URL)
    (hfound : FindOne env.findErr dbFind (c.Param "shortUrl") = .ok url) :
    (GetURL env c dbFind dbUpdate).response = .Redirect 301 url.OriginalURL :=
  (GetURL_found dbUpdate hfound).1

/-- Claim C3 at concrete inputs, one for each outcome of the update: it fails with a
driver error; the record is gone when the update runs, so nothing is modified; it is
applied. -/
theorem C3_redirect_resolves_witness :
    (UpdateOne updateFailsEnv.updateErr [promoRecord] "promo"
        (captureClick updateFailsEnv (requestFor "promo" "127.0.0.1" [])).1 201 =
      .error (.driver "context deadline exceeded") ∧
     (GetURL updateFailsEnv (requestFor "promo" "127.0.0.1" []) [promoRecord]
        [promoRecord]).response = .Redirect 301 "https://example.com/sale") ∧
    (UpdateOne calmVisitEnv.updateErr [] "promo"
        (captureClick calmVisitEnv (requestFor "promo" "127.0.0.1" [])).1 201 =
      .ok (⟨0, 0⟩, []) ∧
     (GetURL calmVisitEnv (requestFor "promo" "127.0.0.1" []) [promoRecord] []).response =
      .Redirect 301 "https://example.com/sale") ∧
    (GetURL calmVisitEnv (requestFor "promo" "127.0.0.1" []) [promoRecord]
        [promoRecord]).response = .Redirect 301 "https://example.com/sale" ∧
    (GetURL calmVisitEnv (requestFor "promo" "127.0.0.1" []) [promoRecord]
        [promoRecord]).db ≠ [promoRecord] :=
  ⟨⟨by decide, C3_redirect_resolves updateFailsEnv (requestFor "promo" "127.0.0.1" [])
      [promoRecord] [promoRecord] promoRecord (by decide)⟩,
   ⟨by decide, C3_redirect_resolves calmVisitEnv (requestFor "promo" "127.0.0.1" [])
      [promoRecord] [] promoRecord (by decide)⟩,
   C3_redirect_resolves calmVisitEnv (requestFor "promo" "127.0.0.1" [])
      [promoRecord] [promoRecord] promoRecord (by decide),
   by decide⟩

/-! ## Claim C6: location supplied by the client -/

/-- Claim C6 as stated fails for supplied values that are no numbers: the request
carries `lat=abc` and `lng=48.5`, the scan of "abc" fails, and the click has latitude
zero (and the longitude read from "48.5"). No geolocation call is made. -/
theorem C6_counterexample :
    (requestFor "promo" "8.8.8.8" [("lat", "abc"), ("lng", "48.5")]).Query "lat" = "abc" ∧
    (requestFor "promo" "8.8.8.8" [("lat", "abc"), ("lng", "48.5")]).Query "lng" = "48.5" ∧
    calmVisitEnv.Sscanf "abc" = none ∧
    (GetURL calmVisitEnv (requestFor "promo" "8.8.8.8" [("lat", "abc"), ("lng", "48.5")])
        [promoRecord] [promoRecord]).click =
      some { ID := 7, Timestamp := 200, IP := "8.8.8.8",
             Latitude := 0, Longitude := ⟨0x4048400000000000⟩ } ∧
    (GetURL calmVisitEnv (requestFor "promo" "8.8.8.8" [("lat", "abc"), ("lng", "48.5")])
        [promoRecord] [promoRecord]).geoCalls = [] := by
  decide

/-- Claim C6, amended. For every request whose `lat` and `lng` query values are both
non-empty and whose lookup succeeds, the click built by `GetURL` has as latitude and
longitude the numbers `fmt.Sscanf` reads from the two values, and zero for a value from
which no number can be read; its country, city and region are the supplied strings; and
`GetLocationFromIP` is not called, whatever the client address. -/
theorem C6_client_location (env : VisitEnv) (c : Context) (dbFind dbUpdate : Store) (url : URL)
    (hlat : c.Query "lat" ≠ "") (hlng : c.Query "lng" ≠ "")
    (hfound : FindOne env.findErr dbFind (c.Param "shortUrl") = .ok url) :
    ∃ click : Click, (GetURL env c dbFind dbUpdate).click = some click ∧
      click.Latitude = (env.Sscanf (c.Query "lat")).getD 0 ∧
      click.Longitude = (env.Sscanf (c.Query "lng")).getD 0 ∧
      (∀ x, env.Sscanf (c.Query "lat") = some x → click.Latitude = x) ∧
      (∀ y, env.Sscanf (c.Query "lng") = some y → click.Longitude = y) ∧
      click.Country = c.Query "country" ∧ click.City = c.Query "city" ∧
      click.Region = c.Query "region" ∧
      (GetURL env c dbFind dbUpdate).geoCalls = [] := by
  obtain ⟨_, hclick, hgeo⟩ := GetURL_found dbUpdate hfound
  have hcap : captureClick env c =
      ({ ID := env.newObjectID, Timestamp := env.clickNow, IP := c.ClientIP,
         UserAgent := c.GetHeader "User-Agent", Referrer := c.GetHeader "Referer",
         Latitude := (env.Sscanf (c.Query "lat")).getD 0,
         Longitude := (env.Sscanf (c.Query "lng")).getD 0,
         Country := c.Query "country", City := c.Query "city",
         Region := c.Query "region" }, []) := by
    simp only [captureClick, hlat, hlng, ne_eq, not_false_eq_true, and_self, if_true]
  refine ⟨(captureClick env c).1, hclick, ?_, ?_, ?_, ?_, ?_, ?_, ?_, ?_⟩
  · rw [hcap]
  · rw [hcap]
  · intro x hx; rw [hcap, hx]; rfl
  · intro y hy; rw [hcap, hy]; rfl
  · rw [hcap]
  · rw [hcap]
  · rw [hcap]
  · rw [hgeo, hcap]

/-- Claim C6, amended, at a concrete input: `lat=2.25`, `lng=48.5` and a country, from a
public address. -/
theorem C6_client_location_witness :
    ∃ click : Click,
      (GetURL calmVisitEnv
        (requestFor "promo" "8.8.8.8" [("lat", "2.25"), ("lng", "48.5"), ("country", "FR")])
        [promoRecord] [promoRecord]).click = some click ∧
      click.Latitude = ⟨0x4002000000000000⟩ ∧ click.Longitude = ⟨0x4048400000000000⟩ ∧
      click.Country = "FR" ∧ click.City = "" ∧ click.Region = "" ∧
      (GetURL calmVisitEnv
        (requestFor "promo" "8.8.8.8" [("lat", "2.25"), ("lng", "48.5"), ("country", "FR")])
        [promoRecord] [promoRecord]).geoCalls = [] := by
  obtain ⟨click, h, h1, h2, _, _, h3, h4, h5, h6⟩ :=
    C6_client_location calmVisitEnv
      (requestFor "promo" "8.8.8.8" [("lat", "2.25"), ("lng", "48.5"), ("country", "FR")])
      [promoRecord] [promoRecord] promoRecord (by decide) (by decide) (by decide)
  exact ⟨click, h, h1.trans (by decide), h2.trans (by decide), h3.trans (by decide),
    h4.trans (by decide), h5.trans (by decide), h6⟩

/-! ## Claim C7: visits from the local host -/

/-- Cut a text at every dot. -/
def splitDots : List Char → List (List Char)
  | [] => [[]]
  | ch :: rest =>
    if ch = '.' then [] :: splitDots rest
    else
      match splitDots rest with
      | [] => [[ch]]
      | part :: parts => (ch :: part) :: parts

/-- A decimal number of one to three digits that is at most 255. -/
def isOctet (part : List Char) : Bool :=
  part ≠ [] && part.length ≤ 3 && part.all Char.isDigit &&
    part.foldl (fun acc ch => 10 * acc + (ch.toNat - '0'.toNat)) 0 ≤ 255

/-- Loopback address in the words of the spec's glossary, "a request origin address
referring to the local host itself": in text form the IPv6 address `::1` or an IPv4
address of the block 127.0.0.0/8. The handler does not use this definition; it is here
to compare the spec's wording with the test the handler makes. -/
def specLoopbackAddress (ip : String) : Bool :=
  ip = "::1" ||
    match splitDots ip.data with
    | [a, b, c, d] => a = ['1', '2', '7'] && isOctet b && isOctet c && isOctet d
    | _ => false

/-- Claim C7 as stated fails for loopback addresses other than the two the handler
names: from 127.0.0.2, without coordinates, `GetURL` calls `GetLocationFromIP` and the
click carries the answer of the lookup (empty here) instead of the placeholder. -/
theorem C7_counterexample :
    specLoopbackAddress "127.0.0.2" = true ∧
    (requestFor "promo" "127.0.0.2" []).Query "lat" = "" ∧
    (requestFor "promo" "127.0.0.2" []).Query "lng" = "" ∧
    (GetURL calmVisitEnv (requestFor "promo" "127.0.0.2" []) [promoRecord]
        [promoRecord]).geoCalls = ["127.0.0.2"] ∧
    (GetURL calmVisitEnv (requestFor "promo" "127.0.0.2" []) [promoRecord]
        [promoRecord]).click =
      some { ID := 7, Timestamp := 200, IP := "127.0.0.2",
             Country := "", City := "", Region := "" } := by
  decide

/-- Claim C7, amended. For every request whose client address is exactly "127.0.0.1" or
"::1", that does not carry both a `lat` and a `lng` query value, and whose lookup
succeeds, the click built by `GetURL` has country "Local", city "Testing", region "Dev"
and zero coordinates, and `GetLocationFromIP` is not called. -/
theorem C7_localhost_location (env : VisitEnv) (c : Context) (dbFind dbUpdate : Store) (url : URL)
    (hip : c.ClientIP = "127.0.0.1" ∨ c.ClientIP = "::1")
    (hnone : c.Query "lat" = "" ∨ c.Query "lng" = "")
    (hfound : FindOne env.findErr dbFind (c.Param "shortUrl") = .ok url) :
    ∃ click : Click, (GetURL env c dbFind dbUpdate).click = some click ∧
      click.Country = "Local" ∧ click.City = "Testing" ∧ click.Region = "Dev" ∧
      click.Latitude = 0 ∧ click.Longitude = 0 ∧
      (GetURL env c dbFind dbUpdate).geoCalls = [] := by
  obtain ⟨_, hclick, hgeo⟩ := GetURL_found dbUpdate hfound
  have hcoord : ¬ (c.Query "lat" ≠ "" ∧ c.Query "lng" ≠ "") := by
    rintro ⟨h1, h2⟩
    rcases hnone with h | h
    · exact h1 h
    · exact h2 h
  have hlocal : ¬ (c.ClientIP ≠ "127.0.0.1" ∧ c.ClientIP ≠ "::1") := by
    rintro ⟨h1, h2⟩
    rcases hip with h | h
    · exact h1 h
    · exact h2 h
  have hcap : captureClick env c =
      ({ ID := env.newObjectID, Timestamp := env.clickNow, IP := c.ClientIP,
         UserAgent := c.GetHeader "User-Agent", Referrer := c.GetHeader "Referer",
         Country := "Local", City := "Testing", Region := "Dev" }, []) := by
    simp only [captureClick, hcoord, hlocal, if_false]
  refine ⟨(captureClick env c).1, hclick, ?_, ?_, ?_, ?_, ?_, ?_⟩
  · rw [hcap]
  · rw [hcap]
  · rw [hcap]
  · rw [hcap]
  · rw [hcap]
  · rw [hgeo, hcap]

/-- Claim C7, amended, at a concrete input: a visit from "::1" that carries a latitude
but no longitude. -/
theorem C7_localhost_location_witness :
    specLoopbackAddress "::1" = true ∧ specLoopbackAddress "127.0.0.1" = true ∧
    ∃ click : Click,
      (GetURL calmVisitEnv (requestFor "promo" "::1" [("lat", "2.25")]) [promoRecord]
        [promoRecord]).click = some click ∧
      click.Country = "Local" ∧ click.City = "Testing" ∧ click.Region = "Dev" ∧
      click.Latitude = 0 ∧ click.Longitude = 0 ∧
      (GetURL calmVisitEnv (requestFor "promo" "::1" [("lat", "2.25")]) [promoRecord]
        [promoRecord]).geoCalls = [] :=
  ⟨by decide, by decide,
   C7_localhost_location calmVisitEnv (requestFor "promo" "::1" [("lat", "2.25")])
     [promoRecord] [promoRecord] promoRecord (by decide) (by decide) (by decide)⟩

/-! ## Claim C9: effect and frame of the click update -/

theorem updateFirst_none {code : String} {click : Click} {now : Time} :
    ∀ {db : Store}, (∀ u ∈ db, u.ShortURL ≠ code) → updateFirst code click now db = none := by
  intro db
  induction db with
  | nil => intro _; rfl
  | cons u rest ih =>
    intro h
    have hu := h u (List.mem_cons_self _ _)
    simp only [updateFirst, hu, if_false, ih (fun v hv => h v (List.mem_cons_of_mem _ hv)),
      Option.map_none']

theorem updateFirst_split {code : String} {click : Click} {now : Time} :
    ∀ (pre : Store) (u : URL) (post : Store), (∀ v ∈ pre, v.ShortURL ≠ code) →
      u.ShortURL = code →
      updateFirst code click now (pre ++ u :: post) = some (pre ++ applyClick click now u :: post) := by
  intro pre
  induction pre with
  | nil => intro u post _ hu; simp [updateFirst, hu]
  | cons w pre ih =>
    intro u post hpre hu
    have hw := hpre w (List.mem_cons_self _ _)
    have hrest := ih u post (fun v hv => hpre v (List.mem_cons_of_mem _ hv)) hu
    show updateFirst code click now (w :: (pre ++ u :: post)) = _
    simp only [updateFirst, hw, if_false, hrest, Option.map_some', List.cons_append]

theorem updateFirst_frame {code : String} {click : Click} {now : Time} :
    ∀ (db db' : Store), updateFirst code click now db = some db' →
      db'.length = db.length ∧
      ∀ (i : Nat) (v : URL), db[i]? = some v → v.ShortURL ≠ code → db'[i]? = some v := by
  intro db
  induction db with
  | nil => intro db' h; simp [updateFirst] at h
  | cons u rest ih =>
    intro db' h
    simp only [updateFirst] at h
    split at h
    · rename_i hu
      simp only [Option.some.injEq] at h
      subst h
      refine ⟨by simp, ?_⟩
      intro i v hv hne
      cases i with
      | zero =>
        simp only [List.getElem?_cons_zero, Option.some.injEq] at hv
        subst hv
        exact absurd hu hne
      | succ i => simpa using hv
    · simp only [Option.map_eq_some'] at h
      obtain ⟨rest', hr, rfl⟩ := h
      obtain ⟨hlen, hframe⟩ := ih rest' hr
      refine ⟨by simp [hlen], ?_⟩
      intro i v hv hne
      cases i with
      | zero => simpa using hv
      | succ i =>
        simp only [List.getElem?_cons_succ] at hv ⊢
        exact hframe i v hv hne

/-- Claim C9. For every store, code, click and time, the update `GetURL` issues, once the
store carries it out, behaves as follows. When no record has the code, nothing is modified and the store is as before.
When `u` is the first record with the code, the store afterwards is the same list with
`u` replaced by a record whose clicks are the old clicks followed by the new click,
whose counter is the old counter plus 1 (so not smaller), whose `updated_at` is the new
time, and whose id, `original_url`, `short_url`, `custom_alias`, `created_at` and
`is_active` are those of `u`. Whenever the update returns, the store keeps its length
and every record with another `short_url` keeps its place and value. A failed update
leaves the store `GetURL` hands back as it was. -/
theorem C9_click_append (db : Store) (code : String) (click : Click) (now : Time) :
    ((∀ u ∈ db, u.ShortURL ≠ code) →
      UpdateOne none db code click now = .ok (⟨0, 0⟩, db)) ∧
    (∀ (pre : Store) (u : URL) (post : Store), db = pre ++ u :: post →
      (∀ v ∈ pre, v.ShortURL ≠ code) → u.ShortURL = code →
      ∃ u' : URL, UpdateOne none db code click now = .ok (⟨1, 1⟩, pre ++ u' :: post) ∧
        u'.Clicks = u.Clicks ++ [click] ∧ u'.TotalClicks = u.TotalClicks + 1 ∧
        u.TotalClicks ≤ u'.TotalClicks ∧ u'.UpdatedAt = now ∧
        u'.ID = u.ID ∧ u'.OriginalURL = u.OriginalURL ∧ u'.ShortURL = u.ShortURL ∧
        u'.CustomAlias = u.CustomAlias ∧ u'.CreatedAt = u.CreatedAt ∧
        u'.IsActive = u.IsActive) ∧
    (∀ (fault : Option String) (res : UpdateResult) (db' : Store),
      UpdateOne fault db code click now = .ok (res, db') →
      db'.length = db.length ∧
      ∀ (i : Nat) (v : URL), db[i]? = some v → v.ShortURL ≠ code → db'[i]? = some v) ∧
    (∀ (env : VisitEnv) (c : Context) (dbFind : Store) (url : URL),
      FindOne env.findErr dbFind (c.Param "shortUrl") = .ok url →
      (GetURL env c dbFind db).db =
        match UpdateOne env.updateErr db (c.Param "shortUrl") (captureClick env c).1
            env.updateNow with
        | .ok (_, db') => db'
        | .error _ => db) := by
  refine ⟨?_, ?_, ?_, ?_⟩
  · intro h
    simp [UpdateOne, updateFirst_none h]
  · intro pre u post hdb hpre hu
    refine ⟨applyClick click now u, ?_, rfl, rfl, ?_, rfl, rfl, rfl, rfl, rfl, rfl, rfl⟩
    · subst hdb
      simp [UpdateOne, updateFirst_split pre u post hpre hu]
    · show u.TotalClicks ≤ u.TotalClicks + 1
      omega
  · intro fault res db' h
    unfold UpdateOne at h
    cases fault with
    | some msg => simp at h
    | none =>
      simp only at h
      cases hu : updateFirst code click now db with
      | none =>
        rw [hu] at h
        simp only [Except.ok.injEq, Prod.mk.injEq] at h
        obtain ⟨_, rfl⟩ := h
        exact ⟨rfl, fun i v hv _ => hv⟩
      | some db2 =>
        rw [hu] at h
        simp only [Except.ok.injEq, Prod.mk.injEq] at h
        obtain ⟨_, rfl⟩ := h
        exact updateFirst_frame db db2 hu
  · intro env c dbFind url hfound
    unfold GetURL
    simp only [hfound]
    cases hU : UpdateOne env.updateErr db (c.Param "shortUrl") (captureClick env c).1
        env.updateNow with
    | error e => rfl
    | ok r =>
      obtain ⟨res, db'⟩ := r
      simp only
      split <;> rfl

/-- A click from the local host, as `GetURL` builds it. -/
def sampleClick : Click :=
  { ID := 7, Timestamp := 200, IP := "127.0.0.1",
    Country := "Local", City := "Testing", Region := "Dev" }

/-- Claim C9 at a concrete input: of two records "promo" behind a record "other", the
first "promo" gets the click, the second one and "other" stay as they are. -/
theorem C9_click_append_witness :
    ∃ u' : URL,
      UpdateOne none [{ ShortURL := "other" }, promoRecord, promoRecord] "promo" sampleClick 201 =
        .ok (⟨1, 1⟩, [{ ShortURL := "other" }] ++ u' :: [promoRecord]) ∧
      u'.Clicks = [sampleClick] ∧ u'.TotalClicks = 1 ∧ u'.UpdatedAt = 201 ∧
      u'.ShortURL = "promo" :=
  match (C9_click_append [{ ShortURL := "other" }, promoRecord, promoRecord] "promo"
      sampleClick 201).2.1 [{ ShortURL := "other" }] promoRecord [promoRecord] rfl
      (by decide) rfl with
  | ⟨u', h, hc, ht, _, hn, _, _, hs, _⟩ => ⟨u', h, hc, ht, hn, hs⟩

/-! ## Sample runs -/

/-- With the raw draws 0, 1, 2, 3, 4, 5 the generator spells the first six symbols. -/
theorem GenerateShortURL_sample : GenerateShortURL (fun i => i) 6 = "abcdef" := by decide

/-- Draws beyond the alphabet wrap around: 62 is read as 0, 63 as 1. -/
theorem GenerateShortURL_wraps : GenerateShortURL (fun i => 61 + i) 3 = "9ab" := by decide

/-- Two creations without alias under the same draws, then a custom alias, a repeated
alias, and a visit from the local host. The second creation draws "abcdef" again, finds
it taken and keeps "hijklm" from its second attempt; the repeated alias adds nothing;
the visit adds one click to "promo" only. -/
theorem serve_sample :
    serve 2
      [.shrink { calmCreateEnv with insertedID := 2 } (.ok ⟨"https://example.com/a", ""⟩),
       .shrink { calmCreateEnv with insertedID := 3 } (.ok ⟨"https://example.com/b", ""⟩),
       .shrink calmCreateEnv (.ok ⟨"https://example.com/sale", "promo"⟩),
       .shrink calmCreateEnv (.ok ⟨"https://example.com/other", "promo"⟩),
       .visit calmVisitEnv (requestFor "promo" "127.0.0.1" [])] [] =
    [{ ID := 2, OriginalURL := "https://example.com/a", ShortURL := "abcdef",
       CreatedAt := 100, UpdatedAt := 101, IsActive := true },
     { ID := 3, OriginalURL := "https://example.com/b", ShortURL := "hijklm",
       CreatedAt := 100, UpdatedAt := 101, IsActive := true },
     { promoRecord with
       TotalClicks := 1, UpdatedAt := 201,
       Clicks := [{ ID := 7, Timestamp := 200, IP := "127.0.0.1",
                    Country := "Local", City := "Testing", Region := "Dev" }] }] := by
  decide

/-- With one attempt only, the second creation of the run above is still in its loop. -/
theorem generateLoop_out_of_fuel :
    CreateURL 1 calmCreateEnv (.ok ⟨"https://example.com/b", ""⟩)
      [{ ShortURL := "abcdef" }] = none := by
  decide

/-- The loop returns the code of the first attempt that is not taken, given fuel for it:
attempts before `k + n` are taken, attempt `k + n` is free, no count fails. -/
theorem generateLoop_returns (env : CreateEnv) (db : Store) (n : Nat) :
    ∀ (k fuel : Nat), n < fuel →
      (∀ j, k ≤ j → j ≤ k + n → env.countErr j = none) →
      (∀ j, k ≤ j → j < k + n → ∃ u ∈ db, u.ShortURL = GenerateShortURL (env.rand j) 6) →
      (∀ u ∈ db, u.ShortURL ≠ GenerateShortURL (env.rand (k + n)) 6) →
      generateLoop env db fuel k = some (.ok (GenerateShortURL (env.rand (k + n)) 6)) := by
  induction n with
  | zero =>
    intro k fuel hfuel herr _ hfree
    obtain ⟨fuel, rfl⟩ : ∃ f, fuel = f + 1 := ⟨fuel - 1, by omega⟩
    have h0 := herr k (le_refl _) (by omega)
    have hfree0 : ∀ u ∈ db, u.ShortURL ≠ GenerateShortURL (env.rand k) 6 := hfree
    simp only [generateLoop, h0, CountDocuments_fresh hfree0, Nat.add_zero, if_true]
  | succ n ih =>
    intro k fuel hfuel herr htaken hfree
    obtain ⟨fuel, rfl⟩ : ∃ f, fuel = f + 1 := ⟨fuel - 1, by omega⟩
    have h0 := herr k (le_refl _) (by omega)
    obtain ⟨count, hcount, hpos⟩ := CountDocuments_pos (htaken k (le_refl _) (by omega))
    have hne : ¬ count = 0 := by omega
    simp only [generateLoop, h0, hcount, hne, if_false]
    have := ih (k + 1) fuel (by omega) (fun j h1 h2 => herr j (by omega) (by omega))
      (fun j h1 h2 => htaken j (by omega) (by omega))
      (by rw [show k + 1 + n = k + (n + 1) by omega]; exact hfree)
    rw [this, show k + 1 + n = k + (n + 1) by omega]

end Shrink
